import Mathlib

/-!
Verification development for the scene-based video rendering pipeline
(`app/services/audio_service.py`, `transcription_service.py`,
`subtitle_service.py`, `ffmpeg_service.py`, `file_job_service.py`).

The Python code is shallowly embedded: Python floats are modelled as
rationals (`ℚ`), fallible operations return `Except`/`Option`, and the
file-per-job store is modelled as explicit record values.  The decimal
rendering Python performs with `str(<float>)` is modelled by `toString`
on `ℚ`; the claims proved here concern the numeric values carried by
those tokens, not their decimal spelling.
-/

namespace FFmpegDialogue

/-- `AudioAnalysisResult` (`app/models/response_models.py`): one duration
probe per audio source. -/
structure AudioAnalysisResult where
  scene_index : Nat
  url : String
  duration : ℚ
  deriving DecidableEq, Repr

/-- `SceneTiming` (`app/models/response_models.py`). -/
structure SceneTiming where
  scene_index : Nat
  start_time : ℚ
  end_time : ℚ
  duration : ℚ
  deriving DecidableEq, Repr

/-! ## `AudioService.calculate_scene_timings`

The Python code groups probe durations per scene index into a dict
(`scene_audio_durations`), then walks `sorted(scene_audio_durations.keys())`
accumulating `current_time`.  The dict maps each occurring scene index to
the sum of the durations of that scene's probes; since the walk sorts the
keys, the dict's insertion order is irrelevant and the key list is
modelled as the deduplicated list of occurring scene indices. -/

/-- The keys of `scene_audio_durations`: the set of scene indices occurring
in the probe list. -/
def sceneKeys (rs : List AudioAnalysisResult) : List Nat :=
  (rs.map (·.scene_index)).dedup

/-- `scene_audio_durations[idx]`: sum of the durations of the probes of
scene `idx` (accumulated with `+=` in the source). -/
def sceneDuration (rs : List AudioAnalysisResult) (idx : Nat) : ℚ :=
  ((rs.filter (fun r => r.scene_index == idx)).map (·.duration)).sum

/-- The accumulation loop of `calculate_scene_timings`: walk the sorted
scene indices, emitting one `SceneTiming` per index and advancing
`current_time` by that scene's duration. -/
def buildTimings (rs : List AudioAnalysisResult) : List Nat → ℚ → List SceneTiming
  | [], _ => []
  | k :: ks, t =>
    let d := sceneDuration rs k
    ⟨k, t, t + d, d⟩ :: buildTimings rs ks (t + d)

/-- `AudioService.calculate_scene_timings` (`audio_service.py` lines
200-240). -/
def calculate_scene_timings (rs : List AudioAnalysisResult) : List SceneTiming :=
  buildTimings rs (List.insertionSort (· ≤ ·) (sceneKeys rs)) 0

/-- The spec's example probe list `[(0,5.0),(1,3.0),(2,4.0)]`. -/
def exampleProbes : List AudioAnalysisResult :=
  [⟨0, "a", 5⟩, ⟨1, "b", 3⟩, ⟨2, "c", 4⟩]

/-! ## `TranscriptionService.transcribe_scene_audios`

One transcription task runs per scene timing whose scene has audio; the
tasks settle in arbitrary completion order, each completion writing its
result into the dict `transcription_results` keyed by scene index
(`transcription_service.py` lines 124-148).  The dict build is modelled
as a left fold over the completion-order list; the reassembly loop
(lines 150-163) then walks `scene_timings` looking each index up. -/

/-- A Whisper word timestamp dict `{word, start, end}`; times are relative
to the clip's own start. -/
structure WordStamp where
  word : String
  start : ℚ
  endTime : ℚ
  deriving DecidableEq, Repr

/-- `TranscriptionResult` (`app/models/response_models.py`). -/
structure TranscriptionResult where
  scene_index : Nat
  transcription : Option String
  success : Bool
  error : Option String
  word_timestamps : Option (List WordStamp)
  deriving DecidableEq, Repr

/-- The dict `transcription_results` built by the completion loop: each
settled task stores its result under its scene index (later writes win,
as in a Python dict). -/
def buildResultMap (completed : List TranscriptionResult) :
    Nat → Option TranscriptionResult :=
  completed.foldl
    (fun m r k => if k = r.scene_index then some r else m k) (fun _ => none)

/-- The synthesized failure entry for a scene with no stored result
(`transcription_service.py` lines 156-163). -/
def missingSceneResult (scene_idx : Nat) : TranscriptionResult :=
  ⟨scene_idx, none, false, some "No audio found for scene", none⟩

/-- The reassembly loop of `transcribe_scene_audios` (lines 150-163):
walk `scene_timings` in order, taking the stored result for each scene
index, or the synthesized failure entry when none is stored. -/
def reconstructResults (scene_timings : List SceneTiming)
    (m : Nat → Option TranscriptionResult) : List TranscriptionResult :=
  scene_timings.map fun t =>
    match m t.scene_index with
    | some r => r
    | none => missingSceneResult t.scene_index

/-- The settle-and-reassemble phase of `transcribe_scene_audios`:
`completed` is the list of per-task results in completion order. -/
def transcribeReassemble (scene_timings : List SceneTiming)
    (completed : List TranscriptionResult) : List TranscriptionResult :=
  reconstructResults scene_timings (buildResultMap completed)

/-! ## `SubtitleService` caption events and colors

Python's `str` operations are modelled structurally over the character
list of a `String` (so that concrete inputs evaluate inside the kernel):
`strip`, `replace`, argument-less `split` and `' '.join`. -/

/-- Python `str.strip()`: drop leading and trailing whitespace. -/
def pyStripList (l : List Char) : List Char :=
  ((l.dropWhile Char.isWhitespace).reverse.dropWhile Char.isWhitespace).reverse

/-- Python `str.strip()`. -/
def pyStrip (s : String) : String := ⟨pyStripList s.data⟩

/-- Python `str.replace(old, new)` on character lists, fuelled by the
input length (each step consumes at least one character, so the fuel
never runs out on the original call); replaces non-overlapping
occurrences left to right, as Python does for a non-empty `old`. -/
def replaceAux (old new : List Char) : Nat → List Char → List Char
  | _, [] => []
  | 0, l => l
  | fuel + 1, c :: rest =>
    if old ≠ [] ∧ old.isPrefixOf (c :: rest) then
      new ++ replaceAux old new fuel ((c :: rest).drop old.length)
    else c :: replaceAux old new fuel rest

/-- Python `s.replace(old, new)`. -/
def pyReplace (s old new : String) : String :=
  ⟨replaceAux old.data new.data s.data.length s.data⟩

/-- Python argument-less `str.split()`: split on whitespace runs,
dropping empty parts; `acc` accumulates the current word reversed. -/
def pySplitWSAux : List Char → List Char → List (List Char)
  | [], acc => if acc = [] then [] else [acc.reverse]
  | c :: rest, acc =>
    if c.isWhitespace then
      if acc = [] then pySplitWSAux rest []
      else acc.reverse :: pySplitWSAux rest []
    else pySplitWSAux rest (c :: acc)

/-- Python `' '.join(parts)` on character lists. -/
def joinSpace : List (List Char) → List Char
  | [] => []
  | [x] => x
  | x :: y :: rest => x ++ ' ' :: joinSpace (y :: rest)

/-- `SubtitleService._clean_text_for_ass` (`subtitle_service.py` lines
259-281): newlines become the ASS line break, braces and `|` are escaped,
and whitespace runs collapse to a single space
(Python `' '.join(text.split())`). -/
def clean_text_for_ass (text : String) : String :=
  if text = "" then ""
  else
    let c := pyReplace text "\n" "\\N"
    let c := pyReplace c "\x7b" "\\\x7b"
    let c := pyReplace c "\x7d" "\\\x7d"
    let c := pyReplace c "|" "\\h"
    ⟨joinSpace (pySplitWSAux c.data [])⟩

/-- A caption event, carrying the numeric times the source formats with
`format_ass_time` into one `Dialogue:` line. -/
structure CaptionEvent where
  start : ℚ
  endTime : ℚ
  text : String
  deriving DecidableEq, Repr

/-- `SubtitleService._generate_progressive_events` (`subtitle_service.py`
lines 149-207), modelled as the list of emitted events.  Per word `i`:
`absolute_start = max(start_time + w.start, start_time)` (the computed
`absolute_end = min(start_time + w.end, end_time)` is never used for the
event); empty words are skipped; the event end is the next word's absolute
start min-clamped to `end_time`, or `end_time` for the last word. -/
def generate_progressive_events (scene_timing : SceneTiming) :
    List WordStamp → List CaptionEvent
  | [] => []
  | w :: ws =>
    let word_text := pyStrip w.word
    let absolute_start :=
      max (scene_timing.start_time + w.start) scene_timing.start_time
    let rest := generate_progressive_events scene_timing ws
    if word_text ≠ "" then
      let subtitle_end :=
        match ws with
        | [] => scene_timing.end_time
        | w' :: _ =>
          min (scene_timing.start_time + w'.start) scene_timing.end_time
      ⟨absolute_start, subtitle_end, clean_text_for_ass word_text⟩ :: rest
    else rest

/-- `SubtitleService._parse_color` (`subtitle_service.py` lines 210-233):
strip a leading `#`; a six-character remainder is channel-swapped to
`&H00BBGGRR` (with no check that the characters are hexadecimal digits);
any other length falls back to white. -/
def parse_color (hex_color : String) : String :=
  let h :=
    if hex_color.data.head? = some '#' then hex_color.data.tail
    else hex_color.data
  if h.length = 6 then
    let r := h.take 2
    let g := (h.drop 2).take 2
    let b := (h.drop 4).take 2
    String.mk ("&H00".data ++ b ++ g ++ r)
  else "&H00FFFFFF"

/-- The `#`-stripped remainder `_parse_color` works on. -/
def strippedHex (s : String) : List Char :=
  if s.data.head? = some '#' then s.data.tail else s.data

/-- The channel-order swap `RRGGBB ↦ &H00BBGGRR` of the six-character
remainder. -/
def swapChannels (h : List Char) : String :=
  String.mk ("&H00".data ++ (h.drop 4).take 2 ++ (h.drop 2).take 2 ++ h.take 2)

/-- A hexadecimal digit. -/
def isHexDigitChar (c : Char) : Bool :=
  c.isDigit || ('a' ≤ c && c ≤ 'f') || ('A' ≤ c && c ≤ 'F')

/-- Modelled from the spec: a valid hex color in the claim's sense,
`#RRGGBB` with six hexadecimal digits (this is also what the repository's
own `_is_valid_color` accepts for digit-only hex parts). -/
def specValidHexColor (s : String) : Bool :=
  s.data.head? = some '#' && s.data.tail.length = 6 &&
    s.data.tail.all isHexDigitChar

/-! ## Configuration model (`app/models/video_config.py`)

Scene elements and top-level elements are the closed tagged variants the
Pydantic validator dispatches on; unknown elements are kept as `other`. -/

/-- A validated `Scene.elements` entry. -/
inductive SceneElement where
  | audio (src : String)
  | image (src : String) (x y : Int)
  | other
  deriving DecidableEq, Repr

/-- Whether a scene element is an audio element. -/
def SceneElement.isAudio : SceneElement → Bool
  | .audio _ => true
  | _ => false

/-- `Scene`. -/
structure Scene where
  id : String
  elements : List SceneElement
  deriving DecidableEq, Repr

/-- A validated top-level `VideoConfig.elements` entry; the video variant
keeps the fields command generation reads (`src`, `duration`). -/
inductive TopElement where
  | video (src : String) (duration : Option ℚ)
  | subtitles
  | other
  deriving DecidableEq, Repr

/-- `VideoConfig`. -/
structure VideoConfig where
  width : Int
  height : Int
  scenes : List Scene
  elements : List TopElement
  deriving DecidableEq, Repr

/-- `VideoConfig.get_background_video`: the first video element. -/
def get_background_video (config : VideoConfig) :
    Option (String × Option ℚ) :=
  config.elements.findSome? fun el =>
    match el with
    | .video src dur => some (src, dur)
    | _ => none

/-! ## `process_gdrive_url` (`app/utils/url_utils.py`)

Python `in`, `split` and `isalnum` are modelled structurally over
character lists. -/

/-- Python `needle in hay` for a non-empty needle. -/
def containsSub (needle : List Char) : List Char → Bool
  | [] => needle.isPrefixOf []
  | c :: rest => needle.isPrefixOf (c :: rest) || containsSub needle rest

/-- Python `s.split(sep)` for a non-empty `sep`, fuelled by the input
length (one fuel unit per consumed character). -/
def splitOnAux (sep : List Char) : Nat → List Char → List Char →
    List (List Char)
  | 0, l, acc => [acc.reverse ++ l]
  | _ + 1, [], acc => [acc.reverse]
  | fuel + 1, c :: rest, acc =>
    if sep ≠ [] ∧ sep.isPrefixOf (c :: rest) then
      acc.reverse :: splitOnAux sep fuel ((c :: rest).drop sep.length) []
    else splitOnAux sep fuel rest (c :: acc)

/-- Python `s.split(sep)`. -/
def pySplitOn (s sep : String) : List String :=
  (splitOnAux sep.data (s.data.length + 1) s.data []).map String.mk

/-- Python `s.isalnum()` (false on the empty string). -/
def pyIsAlnum (s : String) : Bool :=
  s.data ≠ [] && s.data.all Char.isAlphanum

/-- `process_gdrive_url` (`url_utils.py` lines 13-51): non-Drive URLs
pass through; otherwise the file id is extracted from `id=` or
`/file/d/` forms and, when it looks valid (length > 20 and alphanumeric
after dropping `_`/`-`), rewritten to the export form. -/
def process_gdrive_url (url : String) : String :=
  if ¬ containsSub "drive.google.com".data url.data then url
  else
    let file_id : Option String :=
      if containsSub "id=".data url.data then
        some (((pySplitOn ((pySplitOn url "id=").getD 1 "") "&").getD 0 ""))
      else if containsSub "/file/d/".data url.data then
        some (((pySplitOn ((pySplitOn url "/file/d/").getD 1 "") "/").getD 0
          ""))
      else none
    match file_id with
    | some fid =>
      if fid ≠ "" ∧ fid.data.length > 20 ∧
          pyIsAlnum (pyReplace (pyReplace fid "_" "") "-" "") then
        "https://drive.google.com/uc?export=download&id=" ++ fid
      else url
    | none => url

/-! ## `AudioService.analyze_audio_durations` and the pipeline audio stage

Duration probing runs on a worker pool; a probe is modelled as an oracle
`String → Option ℚ` (`none` = failure or timeout, absorbed into the
fallback duration `10.0`).  The results are sorted by scene index before
being returned, so the completion order does not appear in the model. -/

/-- The audio task collection loop of `analyze_audio_durations`
(`audio_service.py` lines 116-126). -/
def collectAudioTasks (config : VideoConfig) : List (Nat × String) :=
  config.scenes.enum.flatMap fun p =>
    p.2.elements.filterMap fun el =>
      match el with
      | .audio src =>
        let audio_url := process_gdrive_url src
        if audio_url ≠ "" ∧ pyStrip audio_url ≠ "" then some (p.1, audio_url)
        else none
      | _ => none

/-- `AudioService.analyze_audio_durations` (`audio_service.py` lines
101-181): with no audio tasks it returns `([], 0)`; otherwise each task
is probed (fallback duration 10.0 on failure) and the results are sorted
ascending by scene index. -/
def analyze_audio_durations (probe : String → Option ℚ)
    (config : VideoConfig) : List AudioAnalysisResult × ℚ :=
  let tasks := collectAudioTasks config
  if tasks = [] then ([], 0)
  else
    let results := tasks.map fun p =>
      match probe p.2 with
      | some d => AudioAnalysisResult.mk p.1 p.2 d
      | none => AudioAnalysisResult.mk p.1 p.2 10
    ((List.insertionSort (fun a b => a.scene_index ≤ b.scene_index) results),
      (results.map (·.duration)).sum)

/-- The audio-analysis step of `_process_video_generation`
(`video_controller.py` lines 61-68): run the analyzer, then raise
`ConfigurationError` when it found no audio files. -/
def pipelineAudioStage (probe : String → Option ℚ) (config : VideoConfig) :
    Except String (List AudioAnalysisResult × ℚ) :=
  let r := analyze_audio_durations probe config
  if r.1 = [] then Except.error "No audio files found in configuration"
  else Except.ok r

/-! ## `FFmpegService` command generation (`ffmpeg_service.py`) -/

/-- The decimal rendering Python performs with `str(<number>)`; the
claims about the command concern the numeric values carried by these
tokens, not their decimal spelling. -/
def pyFloatStr (q : ℚ) : String := toString q

/-- Python `int(x)` on a float: truncation toward zero. -/
def pyInt (q : ℚ) : Int := Int.tdiv q.num q.den

/-- The settings fields command generation reads
(`app/config/settings.py`). -/
structure RenderSettings where
  video_preset : String
  video_quality_crf : Int
  deriving DecidableEq, Repr

/-- `FFmpegService._validate_config` (`ffmpeg_service.py` lines
185-206). -/
def validate_config (config : VideoConfig)
    (audio_info : List AudioAnalysisResult) : Except String Unit :=
  if (get_background_video config).isNone then
    Except.error "No background video specified"
  else if audio_info = [] then Except.error "No audio files found"
  else if config.width ≤ 0 ∨ config.height ≤ 0 then
    Except.error "Invalid video dimensions"
  else if config.scenes.length = 0 then Except.error "No scenes specified"
  else Except.ok ()

/-- `FFmpegService._calculate_loops` (`ffmpeg_service.py` lines 208-224):
`-1` (infinite loop) for an unknown or non-positive background duration,
else `int(total_duration / bg_duration) + 1`. -/
def calculate_loops (bg_duration : Option ℚ) (total_duration : ℚ) : Int :=
  match bg_duration with
  | none => -1
  | some d => if d ≤ 0 then -1 else pyInt (total_duration / d) + 1

/-- One `_collect_image_data` entry (url already Drive-processed). -/
structure ImgData where
  url : String
  x : Int
  y : Int
  scene_index : Nat
  deriving DecidableEq, Repr

/-- `FFmpegService._collect_image_data` (`ffmpeg_service.py` lines
226-247). -/
def collect_image_data (config : VideoConfig) : List ImgData :=
  config.scenes.enum.flatMap fun p =>
    p.2.elements.filterMap fun el =>
      match el with
      | .image src x y => some ⟨process_gdrive_url src, x, y, p.1⟩
      | _ => none

/-- The first-seen de-duplication loop over image urls
(`ffmpeg_service.py` lines 80-86). -/
def uniqueImageUrls (image_data : List ImgData) : List String :=
  image_data.foldl (fun acc d => if d.url ∈ acc then acc else acc ++ [d.url])
    []

/-- `FFmpegService._generate_audio_filters` (`ffmpeg_service.py` lines
249-269): the appended filter lines and the returned audio map. -/
def generate_audio_filters (audio_urls : List String) :
    List String × String :=
  if audio_urls.length > 1 then
    let audio_inputs := String.join ((List.range audio_urls.length).map
      fun i => "[" ++ toString (i + 1) ++ ":a]")
    ([audio_inputs ++ "concat=n=" ++ toString audio_urls.length ++
        ":v=0:a=1[concatenated_audio]",
      "[concatenated_audio]apad=pad_dur=2[final_audio]"], "[final_audio]")
  else if audio_urls.length = 1 then
    (["[1:a]apad=pad_dur=2[final_audio]"], "[final_audio]")
  else ([], "0:a")

/-- The scale filter line for image occurrence `i`. -/
def scaleFilter (img_input_idx : Nat) (i : Nat) : String :=
  "[" ++ toString img_input_idx ++ ":v]scale=500:500[scaled_img_" ++
    toString i ++ "]"

/-- The overlay filter line for image occurrence `i` with window
`[s, e)` at overlay position `cnt` (the first overlay reads `[0:v]`,
later ones the previous overlay's label). -/
def overlayFilter (i : Nat) (x y : Int) (s e : ℚ) (cnt : Nat) : String :=
  "[" ++ (if cnt = 0 then "0:v" else "overlay_" ++ toString (cnt - 1)) ++
    "][scaled_img_" ++ toString i ++ "]overlay=" ++ toString x ++ ":" ++
    toString y ++ ":enable=between(t\\," ++ pyFloatStr s ++ "\\," ++
    pyFloatStr e ++ ")[overlay_" ++ toString cnt ++ "]"

/-- The loop body of `_generate_image_overlays` (`ffmpeg_service.py`
lines 299-335): `i` is the `enumerate` index over `image_data`, `cnt`
the running `overlay_count`; an image whose scene has no timing emits
nothing. -/
def imageOverlayLoop (timings : List SceneTiming) (uniq : List String)
    (img_input_base : Nat) :
    List ImgData → Nat → Nat → List String × Nat
  | [], _, cnt => ([], cnt)
  | d :: rest, i, cnt =>
    if d.url ∈ uniq then
      match timings.find? (fun t => t.scene_index == d.scene_index) with
      | some t =>
        let img_input_idx := img_input_base + uniq.indexOf d.url
        let r := imageOverlayLoop timings uniq img_input_base rest (i + 1)
          (cnt + 1)
        (scaleFilter img_input_idx i ::
          overlayFilter i d.x d.y t.start_time t.end_time cnt :: r.1, r.2)
      | none => imageOverlayLoop timings uniq img_input_base rest (i + 1) cnt
    else imageOverlayLoop timings uniq img_input_base rest (i + 1) cnt

/-- `FFmpegService._generate_image_overlays` (`ffmpeg_service.py` lines
271-337): its private `_calculate_scene_timings` copy computes the same
timings as `AudioService.calculate_scene_timings`. -/
def generate_image_overlays (image_data : List ImgData)
    (uniq : List String) (audio_info : List AudioAnalysisResult)
    (audio_input_count : Nat) : List String × String :=
  let timings := calculate_scene_timings audio_info
  let r := imageOverlayLoop timings uniq (audio_input_count + 1) image_data
    0 0
  (r.1, if r.2 > 0 then "overlay_" ++ toString (r.2 - 1) else "0:v")

/-- The image references of `image_data` paired with their owning
scene's timing; one entry per reference whose scene has a timing.  Each
loop iteration of `_generate_image_overlays` that emits an overlay
corresponds to exactly one entry here. -/
def overlayWindows (image_data : List ImgData)
    (timings : List SceneTiming) : List (ImgData × SceneTiming) :=
  image_data.filterMap fun d =>
    (timings.find? (fun t => t.scene_index == d.scene_index)).map
      fun t => (d, t)

/-- `FFmpegService._add_subtitle_filter` (`ffmpeg_service.py` lines
373-391). -/
def addSubtitleFilter (current_video : String)
    (subtitle_file_path : String) : List String :=
  if current_video = "0:v" then
    ["[0:v]ass=" ++ subtitle_file_path ++ "[subtitled_video]"]
  else
    ["[" ++ current_video ++ "]ass=" ++ subtitle_file_path ++
      "[subtitled_video]"]

/-- The fixed leading tokens of every synthesized command. -/
def cmdHeader : List String :=
  ["ffmpeg", "-y", "-protocol_whitelist", "file,http,https,tcp,tls"]

/-- One `-i` input per audio probe, in probe order. -/
def audioInputTokens (audio_urls : List String) : List String :=
  audio_urls.flatMap fun u => ["-i", u]

/-- One `-i` input per unique image url (the source applies
`process_gdrive_url` again to the already-processed url). -/
def imageInputTokens (uniq : List String) : List String :=
  uniq.flatMap fun u => ["-i", process_gdrive_url u]

/-- The `-filter_complex`/`-map` block (`ffmpeg_service.py` lines
105-113). -/
def filterAndMapTokens (filters : List String)
    (current_video : String) : List String :=
  if filters ≠ [] then
    ["-filter_complex", String.intercalate ";" filters] ++
      (if current_video ≠ "0:v" then ["-map", "[" ++ current_video ++ "]"]
        else ["-map", "0:v"])
  else ["-map", "0:v"]

/-- The fixed encode parameter tokens (`ffmpeg_service.py` lines
117-122). -/
def encodeTokens (settings : RenderSettings) : List String :=
  ["-c:v", "libx264", "-preset", settings.video_preset, "-crf",
    toString settings.video_quality_crf]

/-- The command tokens between the loop count and the `-t` duration:
the background input, the audio and unique-image inputs, the filter
graph with its output mapping, the encode parameters and the target
resolution. -/
def midTokens (settings : RenderSettings) (config : VideoConfig)
    (audio_info : List AudioAnalysisResult)
    (subtitle_file_path : Option String) (bgSrc : String) : List String :=
  let bg_url := process_gdrive_url bgSrc
  let audio_urls := audio_info.map (·.url)
  let image_data := collect_image_data config
  let uniq := uniqueImageUrls image_data
  let audioF := generate_audio_filters audio_urls
  let overlayF :=
    if uniq ≠ [] then
      generate_image_overlays image_data uniq audio_info audio_urls.length
    else ([], "0:v")
  let subF :=
    match subtitle_file_path with
    | some p => (addSubtitleFilter overlayF.2 p, "subtitled_video")
    | none => (([] : List String), overlayF.2)
  let filters := audioF.1 ++ overlayF.1 ++ subF.1
  ["-i", bg_url] ++
    audioInputTokens audio_urls ++ imageInputTokens uniq ++
    filterAndMapTokens filters subF.2 ++ ["-map", audioF.2] ++
    encodeTokens settings ++
    ["-s", toString config.width ++ "x" ++ toString config.height]

/-- The token list built by `generate_ffmpeg_command` once validation
has passed, with `bgSrc`/`bgDur` the background video's fields:
`total_required_duration` is the probe-duration sum plus the fixed
2-second buffer, and the loop count is derived from it. -/
def buildCmd (settings : RenderSettings) (config : VideoConfig)
    (audio_info : List AudioAnalysisResult) (output_path : String)
    (subtitle_file_path : Option String) (bgSrc : String)
    (bgDur : Option ℚ) : List String :=
  cmdHeader ++
    ["-stream_loop",
      toString (calculate_loops bgDur ((audio_info.map (·.duration)).sum + 2))] ++
    midTokens settings config audio_info subtitle_file_path bgSrc ++
    (["-t", pyFloatStr ((audio_info.map (·.duration)).sum + 2)] ++
      [output_path])

/-- `FFmpegService.generate_ffmpeg_command` (`ffmpeg_service.py` lines
24-136): validate, resolve the background video, then synthesize the
token list. -/
def generate_ffmpeg_command (settings : RenderSettings)
    (config : VideoConfig) (audio_info : List AudioAnalysisResult)
    (output_path : String) (subtitle_file_path : Option String) :
    Except String (List String) :=
  match validate_config config audio_info with
  | Except.error e => Except.error e
  | Except.ok _ =>
    match get_background_video config with
    | none => Except.error "No background video found in configuration"
    | some bg =>
      Except.ok (buildCmd settings config audio_info output_path
        subtitle_file_path bg.1 bg.2)

/-- Modelled from the spec: the claimed loop count,
`floor(total_required_duration / bg_duration) + 1` when the background
duration is known and positive, else the infinite-loop sentinel `-1`;
to be compared with `calculate_loops`. -/
def claimedLoopCount (bg_duration : Option ℚ) (total_duration : ℚ) : Int :=
  match bg_duration with
  | some d => if 0 < d then ⌊total_duration / d⌋ + 1 else -1
  | none => -1

/-- The background video's duration field, when a background video
exists. -/
def bgDuration (config : VideoConfig) : Option ℚ :=
  match get_background_video config with
  | some bg => bg.2
  | none => none

/-! ## `FileJobService` (`file_job_service.py`)

A job record is modelled as an explicit value; timestamps are rational
"now" parameters, and every operation acts on an existing record (the
file read and write layer always succeeding). -/

/-- `JobStatus` (`file_job_service.py` lines 24-30). -/
inductive JobStatus where
  | pending | processing | completed | failed | cancelled
  deriving DecidableEq, Repr

/-- The persisted job record fields the lifecycle operations touch. -/
structure JobRecord where
  status : JobStatus
  progress : Int
  current_step : String
  started_at : Option ℚ
  completed_at : Option ℚ
  updated_at : ℚ
  error : Option String
  result : Option String
  duration_seconds : Option ℚ
  deriving DecidableEq, Repr

/-- `FileJobService.update_job_status` (`file_job_service.py` lines
158-177): set the status unconditionally; stamp `started_at` once when
entering processing; set the step when truthy; clamp progress into
`[0, 100]` when given.  `_update_job_file` stamps `updated_at`. -/
def update_job_status (now : ℚ) (job : JobRecord) (status : JobStatus)
    (current_step : Option String) (progress : Option Int) : JobRecord :=
  { job with
    status := status
    started_at :=
      if status = JobStatus.processing ∧ job.started_at = none then some now
      else job.started_at
    current_step :=
      match current_step with
      | some s => if s ≠ "" then s else job.current_step
      | none => job.current_step
    progress :=
      match progress with
      | some p => min 100 (max 0 p)
      | none => job.progress
    updated_at := now }

/-- `FileJobService.update_job_progress` (lines 179-181). -/
def update_job_progress (now : ℚ) (job : JobRecord) (progress : Int)
    (step : Option String) : JobRecord :=
  update_job_status now job JobStatus.processing step (some progress)

/-- `FileJobService.complete_job` (lines 183-207). -/
def complete_job (now : ℚ) (job : JobRecord) (result : String) :
    JobRecord :=
  { job with
    status := JobStatus.completed
    completed_at := some now
    progress := 100
    current_step := "Completed"
    result := some result
    duration_seconds :=
      match job.started_at with
      | some s => some (now - s)
      | none => none
    updated_at := now }

/-- `FileJobService.fail_job` (lines 209-219). -/
def fail_job (now : ℚ) (job : JobRecord) (error : String) : JobRecord :=
  { job with
    status := JobStatus.failed
    completed_at := some now
    error := some error
    current_step := "Failed"
    updated_at := now }

/-- `FileJobService.cancel_job` (lines 221-236): only a pending or
processing job is cancelled (returning `true`); otherwise the record is
untouched and `false` is returned. -/
def cancel_job (now : ℚ) (job : JobRecord) : JobRecord × Bool :=
  if job.status = JobStatus.pending ∨ job.status = JobStatus.processing then
    ({ job with
        status := JobStatus.cancelled
        completed_at := some now
        current_step := "Cancelled"
        updated_at := now }, true)
  else (job, false)

/-- A job file on disk: its modification time and its record. -/
structure StoredJob where
  mtime : ℚ
  data : JobRecord
  deriving DecidableEq, Repr

/-- The status filter of `list_jobs`: no filter, or equality with the
requested status. -/
def statusMatches (status : Option JobStatus) (j : StoredJob) : Bool :=
  match status with
  | none => true
  | some s => j.data.status = s

/-- The `list_jobs` sort: by modification time, newest first. -/
def sortByMtimeDesc (files : List StoredJob) : List StoredJob :=
  List.insertionSort (fun a b => b.mtime ≤ a.mtime) files

/-- `FileJobService.list_jobs` (`file_job_service.py` lines 238-264):
sort all job files newest first, scan only the first `limit * 2`, keep
records passing the status filter, and stop after `limit` entries. -/
def list_jobs (files : List StoredJob) (status : Option JobStatus)
    (limit : Nat) : List StoredJob :=
  (((sortByMtimeDesc files).take (limit * 2)).filter
    (statusMatches status)).take limit

/-! ## Concrete example values used by witnesses and counterexamples -/

/-- Two completion orders of the same two settled results (scene 1 has
none), over the timings of the spec's example probes. -/
def completedA : List TranscriptionResult :=
  [⟨2, none, false, some "boom", none⟩, ⟨0, some "hello", true, none, none⟩]

/-- `completedA` in the opposite completion order. -/
def completedB : List TranscriptionResult :=
  [⟨0, some "hello", true, none, none⟩, ⟨2, none, false, some "boom", none⟩]

/-- The spec's scenario 3 scene window `[2.0, 5.0)`. -/
def exampleScene3 : SceneTiming := ⟨0, 2, 5, 3⟩

/-- Scenario-3-shaped word timestamps (integral times, so that concrete
evaluation stays inside the kernel). -/
def exampleWords3 : List WordStamp :=
  [⟨"hi", 0, 1⟩, ⟨"there", 1, 2⟩]

/-- A scene window `[0, 1)` whose single word has relative start `2`,
beyond the scene's width. -/
def overrunScene : SceneTiming := ⟨0, 0, 1, 1⟩

/-- The word whose relative start overruns `overrunScene`. -/
def overrunWords : List WordStamp := [⟨"hi", 2, 3⟩]

/-- A job record already in the terminal `completed` state. -/
def completedJobEx : JobRecord :=
  ⟨JobStatus.completed, 100, "Completed", some 5, some 9, 9, none,
    some "result", some 4⟩

/-- A configuration whose single scene holds only an image element. -/
def noAudioConfig : VideoConfig :=
  ⟨1080, 1920, [⟨"scene-0", [SceneElement.image "http://img.png" 100 200]⟩],
    [TopElement.video "http://bg.mp4" (some 60)]⟩

/-- The default render settings (`video_preset="fast"`,
`video_quality_crf=23`). -/
def settingsEx : RenderSettings := ⟨"fast", 23⟩

/-- A minimal valid configuration: one scene with one audio element, one
background video of known duration. -/
def cfgEx : VideoConfig :=
  ⟨1080, 1920, [⟨"s0", [SceneElement.audio "http://a0.mp3"]⟩],
    [TopElement.video "http://bg.mp4" (some 4)]⟩

/-- The probe results for `cfgEx`. -/
def audioEx : List AudioAnalysisResult := [⟨0, "http://a0.mp3", 6⟩]

instance : IsTotal StoredJob (fun a b => b.mtime ≤ a.mtime) :=
  ⟨fun a b => le_total b.mtime a.mtime⟩

instance : IsTrans StoredJob (fun a b => b.mtime ≤ a.mtime) :=
  ⟨fun _ _ _ h1 h2 => le_trans h2 h1⟩

/-- Two scenes referencing the same image locator, both with audio. -/
def dedupConfig : VideoConfig :=
  ⟨1080, 1920,
    [⟨"s0", [SceneElement.audio "http://a0.mp3",
      SceneElement.image "http://img.png" 10 20]⟩,
     ⟨"s1", [SceneElement.audio "http://a1.mp3",
      SceneElement.image "http://img.png" 30 40]⟩],
    [TopElement.video "http://bg.mp4" (some 4)]⟩

/-- Probe results for `dedupConfig`. -/
def dedupProbes : List AudioAnalysisResult :=
  [⟨0, "http://a0.mp3", 6⟩, ⟨1, "http://a1.mp3", 3⟩]

/-- A configuration whose image sits in a scene with no audio (probes
exist only for scene 0). -/
def imgNoAudioConfig : VideoConfig :=
  ⟨1080, 1920,
    [⟨"s0", [SceneElement.audio "http://a0.mp3"]⟩,
     ⟨"s1", [SceneElement.image "http://img.png" 10 20]⟩],
    [TopElement.video "http://bg.mp4" (some 4)]⟩

/-- Probe results for `imgNoAudioConfig`: scene 1 has none. -/
def imgNoAudioProbes : List AudioAnalysisResult :=
  [⟨0, "http://a0.mp3", 6⟩]

theorem buildTimings_map_scene_index (rs : List AudioAnalysisResult) :
    ∀ ks t, (buildTimings rs ks t).map (·.scene_index) = ks := by
  intro ks
  induction ks with
  | nil => intro t; rfl
  | cons k ks ih => intro t; simp [buildTimings, ih]

theorem buildTimings_duration (rs : List AudioAnalysisResult) :
    ∀ ks t, ∀ s ∈ buildTimings rs ks t,
      s.duration = sceneDuration rs s.scene_index ∧
      s.end_time = s.start_time + s.duration := by
  intro ks
  induction ks with
  | nil => intro t s hs; simp [buildTimings] at hs
  | cons k ks ih =>
    intro t s hs
    simp only [buildTimings, List.mem_cons] at hs
    rcases hs with rfl | hs
    · exact ⟨rfl, rfl⟩
    · exact ih _ s hs

theorem buildTimings_chain (rs : List AudioAnalysisResult) :
    ∀ ks t, List.Chain' (fun a b => b.start_time = a.end_time)
      (buildTimings rs ks t) := by
  intro ks
  induction ks with
  | nil => intro t; simp [buildTimings]
  | cons k ks ih =>
    intro t
    cases ks with
    | nil => simp [buildTimings]
    | cons k' ks' =>
      refine List.Chain'.cons ?_ (ih (t + sceneDuration rs k))
      rfl

theorem buildTimings_head_start (rs : List AudioAnalysisResult)
    (ks : List Nat) (t : ℚ) (h : ks ≠ []) :
    (buildTimings rs ks t).head?.map (·.start_time) = some t := by
  cases ks with
  | nil => exact absurd rfl h
  | cons k ks => rfl

/-- **C1.** For every non-empty probe list, `calculate_scene_timings`
produces timings strictly ascending in scene index; each timing's duration
is the sum of the durations of that scene's probes; the first start is 0;
consecutive timings are contiguous (each start equals the previous end);
and each timing's width equals its duration. -/
theorem calculate_scene_timings_contiguous (rs : List AudioAnalysisResult)
    (h : rs ≠ []) :
    ((calculate_scene_timings rs).map (·.scene_index)).Sorted (· < ·) ∧
    (∀ s ∈ calculate_scene_timings rs,
      s.duration =
        ((rs.filter (fun r => r.scene_index == s.scene_index)).map
          (·.duration)).sum) ∧
    ((calculate_scene_timings rs).head?.map (·.start_time) = some 0) ∧
    List.Chain' (fun a b => b.start_time = a.end_time)
      (calculate_scene_timings rs) ∧
    (∀ s ∈ calculate_scene_timings rs,
      s.end_time - s.start_time = s.duration) := by
  refine ⟨?_, ?_, ?_, ?_, ?_⟩
  · rw [calculate_scene_timings, buildTimings_map_scene_index]
    exact (List.sorted_insertionSort _ _).lt_of_le
      (((List.perm_insertionSort _ _)).nodup_iff.mpr (List.nodup_dedup _))
  · intro s hs
    exact (buildTimings_duration rs _ _ s hs).1
  · apply buildTimings_head_start
    intro hnil
    have hperm := List.perm_insertionSort (· ≤ ·) (sceneKeys rs)
    rw [hnil] at hperm
    have : sceneKeys rs = [] := hperm.symm.eq_nil
    rw [sceneKeys, List.dedup_eq_nil, List.map_eq_nil_iff] at this
    exact h this
  · exact buildTimings_chain rs _ _
  · intro s hs
    have := (buildTimings_duration rs _ _ s hs).2
    linarith

/-- Witness for C1 at the spec's example probes. -/
theorem calculate_scene_timings_contiguous_witness :
    exampleProbes ≠ [] ∧
    (((calculate_scene_timings exampleProbes).map
        (·.scene_index)).Sorted (· < ·) ∧
      (∀ s ∈ calculate_scene_timings exampleProbes,
        s.duration =
          ((exampleProbes.filter
              (fun r => r.scene_index == s.scene_index)).map
            (·.duration)).sum) ∧
      ((calculate_scene_timings exampleProbes).head?.map (·.start_time) =
        some 0) ∧
      List.Chain' (fun a b => b.start_time = a.end_time)
        (calculate_scene_timings exampleProbes) ∧
      (∀ s ∈ calculate_scene_timings exampleProbes,
        s.end_time - s.start_time = s.duration)) :=
  ⟨by decide, calculate_scene_timings_contiguous _ (by decide)⟩

theorem getLast?_mem_of_eq_some {α : Type _} {l : List α} {r : α}
    (h : l.getLast? = some r) : r ∈ l := by
  obtain ⟨hne, heq⟩ :=
    List.mem_getLast?_eq_getLast (show r ∈ l.getLast? from h)
  rw [heq]
  exact List.getLast_mem hne

theorem buildResultMap_foldl (completed : List TranscriptionResult) :
    ∀ (m : Nat → Option TranscriptionResult) (k : Nat),
      completed.foldl
        (fun m r k => if k = r.scene_index then some r else m k) m k =
      match (completed.filter (fun r => r.scene_index == k)).getLast? with
      | some r => some r
      | none => m k := by
  induction completed with
  | nil => intro m k; rfl
  | cons r l ih =>
    intro m k
    rw [List.foldl_cons, ih]
    by_cases hk : r.scene_index = k
    · rw [List.filter_cons_of_pos (by simpa using hk)]
      cases hc : l.filter (fun x => x.scene_index == k) with
      | nil => simp [hc, hk.symm]
      | cons a b =>
        rw [List.getLast?_cons_cons]
        cases h2 : (a :: b).getLast? with
        | none =>
          rw [List.getLast?_eq_none_iff] at h2
          exact (List.cons_ne_nil a b h2).elim
        | some r' => rfl
    · rw [List.filter_cons_of_neg (by simpa using hk)]
      cases (l.filter (fun x => x.scene_index == k)).getLast? with
      | none => exact if_neg fun hc => hk hc.symm
      | some r' => rfl

theorem buildResultMap_eq_getLast (completed : List TranscriptionResult)
    (k : Nat) :
    buildResultMap completed k =
      (completed.filter (fun r => r.scene_index == k)).getLast? := by
  rw [buildResultMap, buildResultMap_foldl]
  cases (completed.filter (fun r => r.scene_index == k)).getLast? <;> rfl

theorem buildResultMap_consistent (completed : List TranscriptionResult)
    (k : Nat) (r : TranscriptionResult)
    (h : buildResultMap completed k = some r) : r.scene_index = k := by
  rw [buildResultMap_eq_getLast] at h
  have hmem := getLast?_mem_of_eq_some h
  have := List.of_mem_filter hmem
  simpa using this

theorem buildResultMap_eq_some_iff (completed : List TranscriptionResult)
    (hnd : (completed.map (·.scene_index)).Nodup) (k : Nat)
    (r : TranscriptionResult) :
    buildResultMap completed k = some r ↔
      r ∈ completed ∧ r.scene_index = k := by
  rw [buildResultMap_eq_getLast]
  constructor
  · intro h
    have hmem := getLast?_mem_of_eq_some h
    exact ⟨List.mem_of_mem_filter hmem, by simpa using List.of_mem_filter hmem⟩
  · rintro ⟨hr, rfl⟩
    have hrf : r ∈ completed.filter
        (fun x => x.scene_index == r.scene_index) := by
      simp [List.mem_filter, hr]
    have hne : completed.filter
        (fun x => x.scene_index == r.scene_index) ≠ [] :=
      List.ne_nil_of_mem hrf
    have hall : ∀ x ∈ completed.filter
        (fun x => x.scene_index == r.scene_index), x = r := by
      intro x hx
      have hx1 := List.mem_of_mem_filter hx
      have hx2 : x.scene_index = r.scene_index := by
        simpa using List.of_mem_filter hx
      exact List.inj_on_of_nodup_map hnd hx1 hr hx2
    rw [List.getLast?_eq_getLast_of_ne_nil hne]
    exact congrArg some (hall _ (List.getLast_mem hne))

theorem buildResultMap_perm (completed₁ completed₂ : List TranscriptionResult)
    (hperm : completed₁.Perm completed₂)
    (hnd : (completed₁.map (·.scene_index)).Nodup) :
    buildResultMap completed₁ = buildResultMap completed₂ := by
  have hnd2 : (completed₂.map (·.scene_index)).Nodup :=
    ((hperm.map (·.scene_index)).nodup_iff).mp hnd
  funext k
  cases h1 : buildResultMap completed₁ k with
  | some r =>
    have := (buildResultMap_eq_some_iff completed₁ hnd k r).mp h1
    exact ((buildResultMap_eq_some_iff completed₂ hnd2 k r).mpr
      ⟨hperm.mem_iff.mp this.1, this.2⟩).symm
  | none =>
    cases h2 : buildResultMap completed₂ k with
    | none => rfl
    | some r =>
      have := (buildResultMap_eq_some_iff completed₂ hnd2 k r).mp h2
      have := (buildResultMap_eq_some_iff completed₁ hnd k r).mpr
        ⟨hperm.mem_iff.mpr this.1, this.2⟩
      rw [h1] at this
      exact absurd this (by simp)

theorem reconstructResults_map_scene_index (scene_timings : List SceneTiming)
    (m : Nat → Option TranscriptionResult)
    (hm : ∀ k r, m k = some r → r.scene_index = k) :
    (reconstructResults scene_timings m).map (·.scene_index) =
      scene_timings.map (·.scene_index) := by
  rw [reconstructResults, List.map_map]
  refine List.map_congr_left fun t _ => ?_
  simp only [Function.comp]
  cases h : m t.scene_index with
  | some r => exact hm _ _ h
  | none => rfl

/-- **C2.** The settle-and-reassemble phase of `transcribe_scene_audios`
is completion-order independent (given one stored result per scene index),
returns exactly one result per scene timing carrying that timing's scene
index, in the order of the timings (hence ascending when the timings are
ascending, with no duplicates or omissions), and synthesizes a
`success=false` entry with explanatory error text for a scene index with
no stored result. -/
theorem transcribeReassemble_ordered (scene_timings : List SceneTiming)
    (completed₁ completed₂ : List TranscriptionResult)
    (hperm : completed₁.Perm completed₂)
    (hnd : (completed₁.map (·.scene_index)).Nodup)
    (hsorted : (scene_timings.map (·.scene_index)).Sorted (· < ·)) :
    transcribeReassemble scene_timings completed₁ =
      transcribeReassemble scene_timings completed₂ ∧
    (transcribeReassemble scene_timings completed₁).map (·.scene_index) =
      scene_timings.map (·.scene_index) ∧
    ((transcribeReassemble scene_timings completed₁).map
        (·.scene_index)).Sorted (· < ·) ∧
    (∀ t ∈ scene_timings, buildResultMap completed₁ t.scene_index = none →
      missingSceneResult t.scene_index ∈
        transcribeReassemble scene_timings completed₁) ∧
    (∀ k, (missingSceneResult k).success = false ∧
      (missingSceneResult k).error = some "No audio found for scene") := by
  have hmap : (transcribeReassemble scene_timings completed₁).map
      (·.scene_index) = scene_timings.map (·.scene_index) :=
    reconstructResults_map_scene_index _ _
      (buildResultMap_consistent completed₁)
  refine ⟨?_, hmap, ?_, ?_, fun k => ⟨rfl, rfl⟩⟩
  · rw [transcribeReassemble, transcribeReassemble,
      buildResultMap_perm completed₁ completed₂ hperm hnd]
  · rw [hmap]; exact hsorted
  · intro t ht hnone
    rw [transcribeReassemble, reconstructResults]
    refine List.mem_map.mpr ⟨t, ht, ?_⟩
    rw [hnone]

/-- Witness for C2 at two concrete completion orders. -/
theorem transcribeReassemble_ordered_witness :
    (completedA.Perm completedB ∧
      (completedA.map (·.scene_index)).Nodup ∧
      (((calculate_scene_timings exampleProbes).map
          (·.scene_index)).Sorted (· < ·))) ∧
    (transcribeReassemble (calculate_scene_timings exampleProbes) completedA =
        transcribeReassemble (calculate_scene_timings exampleProbes)
          completedB ∧
      (transcribeReassemble (calculate_scene_timings exampleProbes)
          completedA).map (·.scene_index) =
        (calculate_scene_timings exampleProbes).map (·.scene_index) ∧
      ((transcribeReassemble (calculate_scene_timings exampleProbes)
          completedA).map (·.scene_index)).Sorted (· < ·) ∧
      (∀ t ∈ calculate_scene_timings exampleProbes,
        buildResultMap completedA t.scene_index = none →
        missingSceneResult t.scene_index ∈
          transcribeReassemble (calculate_scene_timings exampleProbes)
            completedA) ∧
      (∀ k, (missingSceneResult k).success = false ∧
        (missingSceneResult k).error = some "No audio found for scene")) :=
  ⟨⟨by decide, by decide, by decide⟩,
    transcribeReassemble_ordered _ completedA completedB
      (by decide) (by decide) (by decide)⟩

/-- **C3 (amended).** Progressive caption events: unconditionally,
`timing.start ≤ event.start` and `event.end ≤ timing.end`; the code only
max-clamps the event start from below, so the full chain
`timing.start ≤ event.start < event.end ≤ timing.end` holds when every
word's relative start is non-negative and strictly below the scene's
width, and word starts are strictly increasing. -/
theorem generate_progressive_events_window (st : SceneTiming) :
    ∀ words : List WordStamp,
      (∀ w ∈ words, 0 ≤ w.start) →
      (∀ w ∈ words, st.start_time + w.start < st.end_time) →
      words.Chain' (fun a b => a.start < b.start) →
      ∀ e ∈ generate_progressive_events st words,
        st.start_time ≤ e.start ∧ e.start < e.endTime ∧
          e.endTime ≤ st.end_time := by
  intro words
  induction words with
  | nil =>
    intro _ _ _ e he
    simp [generate_progressive_events] at he
  | cons w ws ih =>
    intro hnn hlt hchain e he
    simp only [generate_progressive_events] at he
    have hrest : e ∈ generate_progressive_events st ws →
        st.start_time ≤ e.start ∧ e.start < e.endTime ∧
          e.endTime ≤ st.end_time := fun he' =>
      ih (fun x hx => hnn x (List.mem_cons_of_mem w hx))
        (fun x hx => hlt x (List.mem_cons_of_mem w hx)) hchain.tail e he'
    by_cases hw : pyStrip w.word = ""
    · rw [if_neg (by simpa using hw)] at he
      exact hrest he
    · rw [if_pos hw] at he
      rcases List.mem_cons.mp he with rfl | he'
      · have h0 : 0 ≤ w.start := hnn w (List.mem_cons_self w ws)
        have hwlt : st.start_time + w.start < st.end_time :=
          hlt w (List.mem_cons_self w ws)
        have hmax : max (st.start_time + w.start) st.start_time =
            st.start_time + w.start := max_eq_left (by linarith)
        cases ws with
        | nil =>
          refine ⟨le_max_right _ _, ?_, le_refl _⟩
          dsimp only
          rw [hmax]
          exact hwlt
        | cons w' ws' =>
          have hww' : w.start < w'.start := (List.chain'_cons.mp hchain).1
          refine ⟨le_max_right _ _, ?_, min_le_right _ _⟩
          dsimp only
          rw [hmax]
          exact lt_min (by linarith) hwlt
      · exact hrest he'

/-- Witness for C3 at the spec's scenario 3 input. -/
theorem generate_progressive_events_window_witness :
    ((∀ w ∈ exampleWords3, 0 ≤ w.start) ∧
      (∀ w ∈ exampleWords3,
        exampleScene3.start_time + w.start < exampleScene3.end_time) ∧
      exampleWords3.Chain' (fun a b => a.start < b.start)) ∧
    (∀ e ∈ generate_progressive_events exampleScene3 exampleWords3,
      exampleScene3.start_time ≤ e.start ∧ e.start < e.endTime ∧
        e.endTime ≤ exampleScene3.end_time) :=
  ⟨⟨by norm_num [exampleWords3], by norm_num [exampleWords3, exampleScene3],
      by norm_num [exampleWords3, List.chain'_cons]⟩,
    generate_progressive_events_window exampleScene3 exampleWords3
      (by norm_num [exampleWords3])
      (by norm_num [exampleWords3, exampleScene3])
      (by norm_num [exampleWords3, List.chain'_cons])⟩

/-- **C3 counterexample.** With a non-negative relative word start `2`
against the scene window `[0, 1)`, the emitted event is `(2, 1)`: its
start is not clamped to the scene end, so
`timing.start ≤ event.start < event.end ≤ timing.end` fails. -/
theorem generate_progressive_events_counterexample :
    ¬ ∀ e ∈ generate_progressive_events overrunScene overrunWords,
        overrunScene.start_time ≤ e.start ∧ e.start < e.endTime ∧
          e.endTime ≤ overrunScene.end_time := by
  intro h
  have hne : pyStrip (("hi" : String)) ≠ "" := by decide
  have hmem :
      (⟨max (overrunScene.start_time + 2) overrunScene.start_time,
        overrunScene.end_time,
        clean_text_for_ass (pyStrip "hi")⟩ : CaptionEvent) ∈
        generate_progressive_events overrunScene overrunWords := by
    rw [overrunWords]
    simp only [generate_progressive_events]
    rw [if_pos hne]
    exact List.mem_cons_self _ _
  rcases h _ hmem with ⟨-, hlt, -⟩
  rw [show overrunScene.start_time = 0 from rfl,
    show overrunScene.end_time = 1 from rfl] at hlt
  norm_num at hlt

/-- **C9 (amended).** `_parse_color` never fails: a color string whose
`#`-stripped remainder is not exactly six characters resolves to the
white fallback, and any six-character remainder — whether or not its
characters are hexadecimal digits — is channel-swapped to `&H00BBGGRR`.
In particular every valid `#RRGGBB` color is channel-swapped. -/
theorem parse_color_resolution (s : String) :
    ((strippedHex s).length ≠ 6 → parse_color s = "&H00FFFFFF") ∧
    ((strippedHex s).length = 6 →
      parse_color s = swapChannels (strippedHex s)) ∧
    (specValidHexColor s = true →
      parse_color s = swapChannels (strippedHex s)) := by
  refine ⟨fun h => ?_, fun h => ?_, fun h => ?_⟩
  · rw [parse_color]
    rw [strippedHex] at h
    split at h <;> simp_all
  · rw [parse_color]
    rw [strippedHex] at h
    split at h <;> simp_all [swapChannels, strippedHex]
  · have h6 : (strippedHex s).length = 6 := by
      simp only [specValidHexColor, Bool.and_eq_true, decide_eq_true_eq] at h
      rw [strippedHex, if_pos h.1.1]
      exact h.1.2
    rw [parse_color]
    rw [strippedHex] at h6
    split at h6 <;> simp_all [swapChannels, strippedHex]

/-- Witness for C9: the valid color `#FF0000` (red) resolves to the ASS
value `&H000000FF`. -/
theorem parse_color_resolution_witness :
    specValidHexColor "#FF0000" = true ∧
    parse_color "#FF0000" = "&H000000FF" :=
  ⟨by decide,
    ((parse_color_resolution "#FF0000").2.2 (by decide)).trans (by decide)⟩

/-- **C9 counterexample.** `"#zzzzzz"` is not a valid hex color, yet
`_parse_color` does not fall back to white: it channel-swaps the
non-hexadecimal remainder into `"&H00zzzzzz"`. -/
theorem parse_color_counterexample :
    specValidHexColor "#zzzzzz" = false ∧
    parse_color "#zzzzzz" = "&H00zzzzzz" ∧
    ("&H00zzzzzz" : String) ≠ "&H00FFFFFF" := by decide

/-- **C4 (amended).** Terminal states are sinks only for `cancel_job`,
which returns `false` and leaves a terminal record untouched; the other
lifecycle operations perform no terminal-state check and set the status
to their target value unconditionally. -/
theorem terminal_states_amended (now : ℚ) (job : JobRecord)
    (hterm : job.status = JobStatus.completed ∨
      job.status = JobStatus.failed ∨ job.status = JobStatus.cancelled) :
    cancel_job now job = (job, false) ∧
    (∀ st step prog, (update_job_status now job st step prog).status = st) ∧
    (∀ prog step,
      (update_job_progress now job prog step).status =
        JobStatus.processing) ∧
    (∀ res, (complete_job now job res).status = JobStatus.completed) ∧
    (∀ err, (fail_job now job err).status = JobStatus.failed) := by
  have hnot : ¬ (job.status = JobStatus.pending ∨
      job.status = JobStatus.processing) := by
    rcases hterm with h | h | h <;> rw [h] <;> rintro (hc | hc) <;> cases hc
  exact ⟨by rw [cancel_job, if_neg hnot], fun st step prog => rfl,
    fun prog step => rfl, fun res => rfl, fun err => rfl⟩

/-- Witness for C4 at a concrete completed record. -/
theorem terminal_states_amended_witness :
    (completedJobEx.status = JobStatus.completed ∨
      completedJobEx.status = JobStatus.failed ∨
      completedJobEx.status = JobStatus.cancelled) ∧
    (cancel_job 10 completedJobEx = (completedJobEx, false) ∧
      (∀ st step prog,
        (update_job_status 10 completedJobEx st step prog).status = st) ∧
      (∀ prog step,
        (update_job_progress 10 completedJobEx prog step).status =
          JobStatus.processing) ∧
      (∀ res,
        (complete_job 10 completedJobEx res).status =
          JobStatus.completed) ∧
      (∀ err,
        (fail_job 10 completedJobEx err).status = JobStatus.failed)) :=
  ⟨Or.inl rfl, terminal_states_amended 10 completedJobEx (Or.inl rfl)⟩

/-- **C4 counterexample.** `update_job_status` moves a `completed` job
back to `processing`: terminal states are not sinks for the update
operations. -/
theorem terminal_states_counterexample :
    (update_job_status 10 completedJobEx JobStatus.processing none
      none).status = JobStatus.processing ∧
    completedJobEx.status = JobStatus.completed ∧
    JobStatus.processing ≠ JobStatus.completed := by
  exact ⟨rfl, rfl, by decide⟩

/-- **C5 (amended).** For a configuration with zero audio sources the
analyzer itself does not raise: it collects zero probe tasks (so the
worker pool runs nothing) and returns the empty result `([], 0)`; the
pipeline's audio stage then immediately fails with the configuration
error, before timings, transcription or command generation. -/
theorem analyze_no_audio (probe : String → Option ℚ)
    (config : VideoConfig)
    (h : ∀ scene ∈ config.scenes, ∀ el ∈ scene.elements,
      el.isAudio = false) :
    collectAudioTasks config = [] ∧
    analyze_audio_durations probe config = ([], 0) ∧
    pipelineAudioStage probe config =
      Except.error "No audio files found in configuration" := by
  have htasks : collectAudioTasks config = [] := by
    rw [collectAudioTasks]
    rw [List.flatMap_eq_nil_iff]
    intro p hp
    rw [List.filterMap_eq_nil_iff]
    intro el hel
    have hmem := List.mem_enum hp
    have hscene : p.2 ∈ config.scenes := by
      rw [hmem.2]
      exact List.getElem_mem hmem.1
    have hna := h p.2 hscene el hel
    cases el with
    | audio src => simp [SceneElement.isAudio] at hna
    | image src x y => rfl
    | other => rfl
  have hana : analyze_audio_durations probe config = ([], 0) := by
    rw [analyze_audio_durations, htasks]
    rfl
  refine ⟨htasks, hana, ?_⟩
  rw [pipelineAudioStage, hana]
  rfl

/-- Witness for C5 at the concrete zero-audio configuration. -/
theorem analyze_no_audio_witness :
    (∀ scene ∈ noAudioConfig.scenes, ∀ el ∈ scene.elements,
      el.isAudio = false) ∧
    (collectAudioTasks noAudioConfig = [] ∧
      analyze_audio_durations (fun _ => none) noAudioConfig = ([], 0) ∧
      pipelineAudioStage (fun _ => none) noAudioConfig =
        Except.error "No audio files found in configuration") :=
  ⟨by decide, analyze_no_audio (fun _ => none) noAudioConfig (by decide)⟩

/-- **C5 counterexample.** On a zero-audio configuration the analyzer
returns the empty result `([], 0)` — it does not raise the
configuration error itself (the pipeline stage that calls it does). -/
theorem analyze_no_audio_counterexample :
    analyze_audio_durations (fun _ => none) noAudioConfig = ([], 0) ∧
    pipelineAudioStage (fun _ => none) noAudioConfig =
      Except.error "No audio files found in configuration" :=
  ⟨rfl, rfl⟩

/-- **C8.** Command synthesis is deterministic: equal settings,
configuration, probe results, output path and caption-track path yield
the identical token list. -/
theorem generate_ffmpeg_command_deterministic (s₁ s₂ : RenderSettings)
    (c₁ c₂ : VideoConfig) (a₁ a₂ : List AudioAnalysisResult)
    (o₁ o₂ : String) (p₁ p₂ : Option String)
    (hs : s₁ = s₂) (hc : c₁ = c₂) (ha : a₁ = a₂) (ho : o₁ = o₂)
    (hp : p₁ = p₂) :
    generate_ffmpeg_command s₁ c₁ a₁ o₁ p₁ =
      generate_ffmpeg_command s₂ c₂ a₂ o₂ p₂ := by
  subst hs hc ha ho hp
  rfl

/-- Witness for C8 at concrete equal inputs. -/
theorem generate_ffmpeg_command_deterministic_witness :
    (settingsEx = settingsEx ∧ cfgEx = cfgEx ∧ audioEx = audioEx) ∧
    generate_ffmpeg_command settingsEx cfgEx audioEx "out.mp4" none =
      generate_ffmpeg_command settingsEx cfgEx audioEx "out.mp4" none :=
  ⟨⟨rfl, rfl, rfl⟩,
    generate_ffmpeg_command_deterministic settingsEx settingsEx cfgEx cfgEx
      audioEx audioEx "out.mp4" "out.mp4" none none rfl rfl rfl rfl rfl⟩

/-- **C10.** `list_jobs` returns at most `limit` records, drawn only
from the `limit * 2` most recently modified job files (so a matching job
older than that scan window is omitted even when fewer than `limit`
matches were returned), every returned record passes the status filter,
and the result is ordered newest first. -/
theorem list_jobs_window (files : List StoredJob)
    (status : Option JobStatus) (limit : Nat) :
    (list_jobs files status limit).length ≤ limit ∧
    (∀ j ∈ list_jobs files status limit,
      j ∈ (sortByMtimeDesc files).take (limit * 2)) ∧
    (∀ j, j ∉ (sortByMtimeDesc files).take (limit * 2) →
      j ∉ list_jobs files status limit) ∧
    (∀ j ∈ list_jobs files status limit, statusMatches status j = true) ∧
    (list_jobs files status limit).Sorted
      (fun a b => b.mtime ≤ a.mtime) := by
  have hsub : ∀ j ∈ list_jobs files status limit,
      j ∈ (sortByMtimeDesc files).take (limit * 2) := by
    intro j hj
    exact List.mem_of_mem_filter (List.take_subset _ _ hj)
  refine ⟨?_, hsub, fun j hnot hj => hnot (hsub j hj), ?_, ?_⟩
  · exact List.length_take_le _ _
  · intro j hj
    exact List.of_mem_filter (List.take_subset _ _ hj)
  · have hs : (sortByMtimeDesc files).Sorted
        (fun a b => b.mtime ≤ a.mtime) :=
      List.sorted_insertionSort _ _
    exact List.Pairwise.take (List.Pairwise.filter _
      (List.Pairwise.take hs))

theorem pyInt_eq_floor (q : ℚ) (h : 0 ≤ q) : pyInt q = ⌊q⌋ := by
  rw [pyInt, Rat.floor_def]
  exact Int.tdiv_eq_ediv (Rat.num_nonneg.mpr h) (by positivity)

theorem calculate_loops_eq_claimed (bg_duration : Option ℚ)
    (total_duration : ℚ) (h : 0 ≤ total_duration) :
    calculate_loops bg_duration total_duration =
      claimedLoopCount bg_duration total_duration := by
  cases bg_duration with
  | none => rfl
  | some d =>
    rw [calculate_loops, claimedLoopCount]
    by_cases hd : d ≤ 0
    · rw [if_pos hd, if_neg (not_lt.mpr hd)]
    · have hd' : 0 < d := not_le.mp hd
      rw [if_neg hd, if_pos hd']
      rw [pyInt_eq_floor _ (div_nonneg h hd'.le)]

/-- **C6.** For non-negative probe durations and a configuration passing
validation, the synthesized command carries the `-t` total duration token
for `Σ probe.duration + 2` and the `-stream_loop` token for
`floor(total / bg_duration) + 1` when the background duration is known
and positive, else the infinite-loop sentinel `-1`. -/
theorem generate_command_duration_and_loops (settings : RenderSettings)
    (config : VideoConfig) (audio_info : List AudioAnalysisResult)
    (output_path : String) (subtitle_file_path : Option String)
    (hv : validate_config config audio_info = Except.ok ())
    (hdur : ∀ r ∈ audio_info, 0 ≤ r.duration) :
    ∃ cmd,
      generate_ffmpeg_command settings config audio_info output_path
        subtitle_file_path = Except.ok cmd ∧
      List.IsInfix
        ["-t", pyFloatStr ((audio_info.map (·.duration)).sum + 2)] cmd ∧
      List.IsInfix
        ["-stream_loop",
          toString (claimedLoopCount (bgDuration config)
            ((audio_info.map (·.duration)).sum + 2))] cmd := by
  have htot : 0 ≤ (audio_info.map (·.duration)).sum + 2 := by
    have : 0 ≤ (audio_info.map (·.duration)).sum :=
      List.sum_nonneg (by
        intro x hx
        obtain ⟨r, hr, rfl⟩ := List.mem_map.mp hx
        exact hdur r hr)
    linarith
  cases hopt : get_background_video config with
  | none =>
    exfalso
    rw [validate_config] at hv
    rw [if_pos (by rw [hopt]; rfl)] at hv
    exact Except.noConfusion hv
  | some bg =>
    refine ⟨buildCmd settings config audio_info output_path
      subtitle_file_path bg.1 bg.2, ?_, ?_, ?_⟩
    · rw [generate_ffmpeg_command, hv, hopt]
    · rw [buildCmd]
      exact ⟨cmdHeader ++
        ["-stream_loop",
          toString (calculate_loops bg.2
            ((audio_info.map (·.duration)).sum + 2))] ++
        midTokens settings config audio_info subtitle_file_path bg.1,
        [output_path], by simp [List.append_assoc]⟩
    · have hbgd : bgDuration config = bg.2 := by rw [bgDuration, hopt]
      rw [hbgd, ← calculate_loops_eq_claimed bg.2 _ htot, buildCmd]
      exact ⟨cmdHeader,
        midTokens settings config audio_info subtitle_file_path bg.1 ++
          (["-t", pyFloatStr ((audio_info.map (·.duration)).sum + 2)] ++
            [output_path]),
        by simp [List.append_assoc]⟩

/-- Witness for C6 at the minimal valid configuration. -/
theorem generate_command_duration_and_loops_witness :
    (validate_config cfgEx audioEx = Except.ok () ∧
      ∀ r ∈ audioEx, 0 ≤ r.duration) ∧
    (∃ cmd,
      generate_ffmpeg_command settingsEx cfgEx audioEx "out.mp4" none =
        Except.ok cmd ∧
      List.IsInfix
        ["-t", pyFloatStr ((audioEx.map (·.duration)).sum + 2)] cmd ∧
      List.IsInfix
        ["-stream_loop",
          toString (claimedLoopCount (bgDuration cfgEx)
            ((audioEx.map (·.duration)).sum + 2))] cmd) :=
  ⟨⟨rfl, by decide⟩,
    generate_command_duration_and_loops settingsEx cfgEx audioEx "out.mp4"
      none rfl (by decide)⟩

theorem uniqueImageUrls_aux :
    ∀ (l : List ImgData) (acc : List String), acc.Nodup →
      (l.foldl
        (fun acc d => if d.url ∈ acc then acc else acc ++ [d.url])
        acc).Nodup ∧
      ∀ u, u ∈ l.foldl
          (fun acc d => if d.url ∈ acc then acc else acc ++ [d.url]) acc ↔
        u ∈ acc ∨ u ∈ l.map (·.url) := by
  intro l
  induction l with
  | nil =>
    intro acc h
    exact ⟨h, fun u => by simp⟩
  | cons d rest ih =>
    intro acc h
    simp only [List.foldl_cons]
    by_cases hd : d.url ∈ acc
    · rw [if_pos hd]
      obtain ⟨h1, h2⟩ := ih acc h
      refine ⟨h1, fun u => ?_⟩
      rw [h2]
      constructor
      · rintro (hu | hu)
        · exact Or.inl hu
        · rw [List.map_cons]
          exact Or.inr (List.mem_cons_of_mem _ hu)
      · rintro (hu | hu)
        · exact Or.inl hu
        · rw [List.map_cons] at hu
          rcases List.mem_cons.mp hu with huu | hu'
          · exact Or.inl (by rw [huu]; exact hd)
          · exact Or.inr hu'
    · rw [if_neg hd]
      have hacc : (acc ++ [d.url]).Nodup := by
        refine List.Nodup.append h (List.nodup_singleton _) ?_
        intro x hx hx'
        rw [List.mem_singleton] at hx'
        subst hx'
        exact hd hx
      obtain ⟨h1, h2⟩ := ih (acc ++ [d.url]) hacc
      refine ⟨h1, fun u => ?_⟩
      rw [h2]
      simp [List.mem_append, or_assoc]

theorem uniqueImageUrls_nodup (image_data : List ImgData) :
    (uniqueImageUrls image_data).Nodup :=
  (uniqueImageUrls_aux image_data [] List.nodup_nil).1

theorem uniqueImageUrls_mem (image_data : List ImgData) (u : String) :
    u ∈ uniqueImageUrls image_data ↔ u ∈ image_data.map (·.url) := by
  rw [uniqueImageUrls, (uniqueImageUrls_aux image_data [] List.nodup_nil).2]
  simp

theorem overlayWindows_cons_some {timings : List SceneTiming}
    {d : ImgData} {rest : List ImgData} {t : SceneTiming}
    (hfind : timings.find? (fun t => t.scene_index == d.scene_index) =
      some t) :
    overlayWindows (d :: rest) timings =
      (d, t) :: overlayWindows rest timings := by
  simp [overlayWindows, List.filterMap_cons, hfind]

theorem overlayWindows_cons_none {timings : List SceneTiming}
    {d : ImgData} {rest : List ImgData}
    (hfind : timings.find? (fun t => t.scene_index == d.scene_index) =
      none) :
    overlayWindows (d :: rest) timings = overlayWindows rest timings := by
  simp [overlayWindows, List.filterMap_cons, hfind]

theorem imageOverlayLoop_lengths (timings : List SceneTiming)
    (uniq : List String) (base : Nat) :
    ∀ (l : List ImgData) (i cnt : Nat), (∀ d ∈ l, d.url ∈ uniq) →
      (imageOverlayLoop timings uniq base l i cnt).1.length =
        2 * (overlayWindows l timings).length ∧
      (imageOverlayLoop timings uniq base l i cnt).2 =
        cnt + (overlayWindows l timings).length := by
  intro l
  induction l with
  | nil =>
    intro i cnt h
    simp [imageOverlayLoop, overlayWindows]
  | cons d rest ih =>
    intro i cnt h
    have hd : d.url ∈ uniq := h d (List.mem_cons_self d rest)
    have hrest := fun x hx => h x (List.mem_cons_of_mem d hx)
    rw [imageOverlayLoop, if_pos hd]
    cases hfind : timings.find? (fun t => t.scene_index == d.scene_index)
      with
    | some t =>
      obtain ⟨ih1, ih2⟩ := ih (i + 1) (cnt + 1) hrest
      rw [overlayWindows_cons_some hfind]
      constructor
      · simp only [hfind, List.length_cons]
        rw [ih1]
        omega
      · simp only [hfind]
        rw [ih2]
        simp only [List.length_cons]
        omega
    | none =>
      obtain ⟨ih1, ih2⟩ := ih (i + 1) cnt hrest
      rw [overlayWindows_cons_none hfind]
      simp only [hfind]
      exact ⟨ih1, ih2⟩

theorem overlayWindows_entries (image_data : List ImgData)
    (timings : List SceneTiming) :
    ∀ p ∈ overlayWindows image_data timings,
      p.2 ∈ timings ∧ p.2.scene_index = p.1.scene_index := by
  intro p hp
  rw [overlayWindows] at hp
  obtain ⟨d, _, hfd⟩ := List.mem_filterMap.mp hp
  obtain ⟨t, hfind, rfl⟩ := Option.map_eq_some'.mp hfd
  refine ⟨List.mem_of_find?_eq_some hfind, ?_⟩
  have := List.find?_some hfind
  simpa using this

theorem overlayWindows_count (timings : List SceneTiming) (u : String) :
    ∀ l : List ImgData,
      (∀ d ∈ l, d.url = u →
        (timings.find? (fun t => t.scene_index == d.scene_index)).isSome) →
      ((overlayWindows l timings).filter
        (fun p => p.1.url == u)).length =
        (l.filter (fun d => d.url == u)).length := by
  intro l
  induction l with
  | nil => intro h; rfl
  | cons d rest ih =>
    intro h
    have hrest := fun x hx => h x (List.mem_cons_of_mem d hx)
    by_cases hu : d.url = u
    · have hsome := h d (List.mem_cons_self d rest) hu
      obtain ⟨t, ht⟩ := Option.isSome_iff_exists.mp hsome
      rw [overlayWindows_cons_some ht]
      rw [List.filter_cons_of_pos (by simpa using hu),
        List.filter_cons_of_pos (by simpa using hu)]
      simp only [List.length_cons]
      exact congrArg Nat.succ (ih hrest)
    · cases hfind : timings.find?
        (fun t => t.scene_index == d.scene_index) with
      | some t =>
        rw [overlayWindows_cons_some hfind]
        rw [List.filter_cons_of_neg (by simpa using hu),
          List.filter_cons_of_neg (by simpa using hu)]
        exact ih hrest
      | none =>
        rw [overlayWindows_cons_none hfind]
        rw [List.filter_cons_of_neg (by simpa using hu)]
        exact ih hrest

/-- **C7 (amended).** For `N ≥ 1` references to one image locator, each
in a scene that has a timing (at least one audio probe), command
synthesis allots exactly one de-duplicated input slot for that locator,
and the overlay loop emits exactly one activation per reference — `N` in
all, each carrying its owning scene's `[start, end)` window — two filter
lines per activation.  A reference whose scene has no timing keeps its
input slot but emits no activation (see the counterexample). -/
theorem image_dedup_overlays (config : VideoConfig)
    (audio_info : List AudioAnalysisResult) (u : String)
    (audio_input_count : Nat)
    (href : (collect_image_data config).filter (fun d => d.url == u) ≠ [])
    (htim : ∀ d ∈ collect_image_data config, d.url = u →
      ((calculate_scene_timings audio_info).find?
        (fun t => t.scene_index == d.scene_index)).isSome) :
    (uniqueImageUrls (collect_image_data config)).Nodup ∧
    (uniqueImageUrls (collect_image_data config)).count u = 1 ∧
    ((overlayWindows (collect_image_data config)
        (calculate_scene_timings audio_info)).filter
      (fun p => p.1.url == u)).length =
      ((collect_image_data config).filter (fun d => d.url == u)).length ∧
    (∀ p ∈ overlayWindows (collect_image_data config)
        (calculate_scene_timings audio_info),
      p.2 ∈ calculate_scene_timings audio_info ∧
        p.2.scene_index = p.1.scene_index) ∧
    (generate_image_overlays (collect_image_data config)
        (uniqueImageUrls (collect_image_data config)) audio_info
        audio_input_count).1.length =
      2 * (overlayWindows (collect_image_data config)
        (calculate_scene_timings audio_info)).length := by
  have hmemu : u ∈ uniqueImageUrls (collect_image_data config) := by
    rw [uniqueImageUrls_mem]
    obtain ⟨d, hd⟩ := List.exists_mem_of_ne_nil _ href
    have hd1 := List.mem_of_mem_filter hd
    have hd2 : d.url = u := by simpa using List.of_mem_filter hd
    exact List.mem_map.mpr ⟨d, hd1, hd2⟩
  have hall : ∀ d ∈ collect_image_data config,
      d.url ∈ uniqueImageUrls (collect_image_data config) := by
    intro d hd
    rw [uniqueImageUrls_mem]
    exact List.mem_map.mpr ⟨d, hd, rfl⟩
  refine ⟨uniqueImageUrls_nodup _,
    List.count_eq_one_of_mem (uniqueImageUrls_nodup _) hmemu,
    overlayWindows_count _ u _ htim,
    overlayWindows_entries _ _, ?_⟩
  rw [generate_image_overlays]
  exact (imageOverlayLoop_lengths _ _ _ _ 0 0 hall).1

/-- Witness for C7: two references to one locator across two
audio-bearing scenes. -/
theorem image_dedup_overlays_witness :
    ((collect_image_data dedupConfig).filter
        (fun d => d.url == "http://img.png") ≠ [] ∧
      (∀ d ∈ collect_image_data dedupConfig, d.url = "http://img.png" →
        ((calculate_scene_timings dedupProbes).find?
          (fun t => t.scene_index == d.scene_index)).isSome)) ∧
    ((uniqueImageUrls (collect_image_data dedupConfig)).Nodup ∧
      (uniqueImageUrls
        (collect_image_data dedupConfig)).count "http://img.png" = 1 ∧
      ((overlayWindows (collect_image_data dedupConfig)
          (calculate_scene_timings dedupProbes)).filter
        (fun p => p.1.url == "http://img.png")).length =
        ((collect_image_data dedupConfig).filter
          (fun d => d.url == "http://img.png")).length ∧
      (∀ p ∈ overlayWindows (collect_image_data dedupConfig)
          (calculate_scene_timings dedupProbes),
        p.2 ∈ calculate_scene_timings dedupProbes ∧
          p.2.scene_index = p.1.scene_index) ∧
      (generate_image_overlays (collect_image_data dedupConfig)
          (uniqueImageUrls (collect_image_data dedupConfig)) dedupProbes
          2).1.length =
        2 * (overlayWindows (collect_image_data dedupConfig)
          (calculate_scene_timings dedupProbes)).length) :=
  ⟨⟨by decide, by decide⟩,
    image_dedup_overlays dedupConfig dedupProbes "http://img.png" 2
      (by decide) (by decide)⟩

/-- **C7 counterexample.** One reference (`N = 1`) to a locator from a
scene with no audio probe: the locator still gets its single input slot,
but the loop emits zero overlay activations, not `N`. -/
theorem image_dedup_overlays_counterexample :
    ((collect_image_data imgNoAudioConfig).filter
      (fun d => d.url == "http://img.png")).length = 1 ∧
    (uniqueImageUrls
      (collect_image_data imgNoAudioConfig)).count "http://img.png" = 1 ∧
    ((overlayWindows (collect_image_data imgNoAudioConfig)
        (calculate_scene_timings imgNoAudioProbes)).filter
      (fun p => p.1.url == "http://img.png")).length = 0 ∧
    (generate_image_overlays (collect_image_data imgNoAudioConfig)
        (uniqueImageUrls (collect_image_data imgNoAudioConfig))
        imgNoAudioProbes 1).1.length = 0 ∧
    ((overlayWindows (collect_image_data imgNoAudioConfig)
        (calculate_scene_timings imgNoAudioProbes)).filter
      (fun p => p.1.url == "http://img.png")).length ≠
      ((collect_image_data imgNoAudioConfig).filter
        (fun d => d.url == "http://img.png")).length := by decide

end FFmpegDialogue
